import Mathlib

/-!
Shallow embedding of `src/morning_digest.py` (the "wayve" weekly digest
script) for checking the natural-language specification against the code.

Modelling conventions:
* Python `dict` values parsed from JSON are modelled by the inductive `Json`
  (numbers as `Int`; the claims under study never depend on float values).
* A Python function that can raise is modelled with `Option`/`Except`
  (`SystemExit` → `none`, `TypeError` → `Except.error`).
* `datetime` instants are modelled as `Int` seconds since an arbitrary epoch;
  the external `dateutil` parser is passed in as a function
  `parse : String → Option Int` (parse failure → `none`), and `timedelta(hours=h)`
  becomes `h * 3600` seconds.
* Python string methods (`strip`, `lower`, `split(",")`, `replace(" ", "-")`,
  `rstrip(".")`) are implemented below by structural recursion over the
  character list (`pyStrip`, `pyLower`, `pySplitComma`, ...), so that every
  definition evaluates inside the kernel.
-/

/-- Python `str.isspace` for a single character (ASCII whitespace). -/
def pyIsSpace (c : Char) : Bool :=
  c = ' ' || c = '\t' || c = '\n' || c = '\r' || c = '\x0b' || c = '\x0c'

/-- Python `str.strip()`: drop leading and trailing whitespace. -/
def pyStrip (s : String) : String :=
  String.mk (((s.toList.dropWhile pyIsSpace).reverse.dropWhile pyIsSpace).reverse)

/-- Python `str.lower()` (ASCII case mapping, enough for the data at hand). -/
def pyLower (s : String) : String :=
  String.mk (s.toList.map Char.toLower)

/-- Python `str.replace(" ", "-")`. -/
def pyHyphenate (s : String) : String :=
  String.mk (s.toList.map (fun c => if c = ' ' then '-' else c))

/-- Python `str.split(",")` over the character list: `""` gives `[""]`,
a trailing comma gives a trailing empty field. -/
def pySplitCommaChars : List Char → List (List Char)
  | [] => [[]]
  | c :: cs =>
    let rest := pySplitCommaChars cs
    if c = ',' then [] :: rest
    else
      match rest with
      | [] => [[c]]
      | g :: gs => (c :: g) :: gs

/-- Python `str.split(",")`. -/
def pySplitComma (s : String) : List String :=
  (pySplitCommaChars s.toList).map String.mk

/-- JSON values as produced by `json.loads`.  Object field lists are
unique-keyed (as `json.loads` returns); numbers are modelled as integers. -/
inductive Json where
  | null : Json
  | bool : Bool → Json
  | num : Int → Json
  | str : String → Json
  | arr : List Json → Json
  | obj : List (String × Json) → Json
deriving Inhabited

/-- A normalized feed entry as built by `fetch_items` (Python dict with keys
`source`, `title`, `link`, `published_display`, `published_iso`, `paywalled`). -/
structure RawItem where
  source : String
  title : String
  link : String
  published_display : String
  published_iso : String
  paywalled : Bool
deriving Repr, DecidableEq, Inhabited

/-- One sanitized digest item (the dict appended by `_sanitize_digest_payload`
or built by `_build_fallback_item`). -/
structure DigestItem where
  title : String
  url : String
  source : String
  summary : String
  market_impact : String
  action : String
  tags : List String
  paywalled : Bool
  published_display : String
  published_iso : String
deriving Repr, DecidableEq, Inhabited

/-- The digest dict `{"highlights": ..., "items": ...}`. -/
structure Digest where
  highlights : List String
  items : List DigestItem
deriving Repr, DecidableEq, Inhabited

/-- Python truthiness of a JSON value (`bool(v)`). -/
def Json.truthy : Json → Bool
  | .null => false
  | .bool b => b
  | .num n => n != 0
  | .str s => s != ""
  | .arr xs => !xs.isEmpty
  | .obj fs => !fs.isEmpty

/-- `d.get(key)` on a JSON object's field list (`None` when absent). -/
def jsonGet (fields : List (String × Json)) (key : String) : Option Json :=
  (fields.find? (fun p => p.1 == key)).map (fun p => p.2)

mutual

/-- Python `repr` of a JSON value (used by `str()` on non-string values).
String quoting is simplified to always use single quotes. -/
def pyRepr : Json → String
  | .null => "None"
  | .bool true => "True"
  | .bool false => "False"
  | .num n => toString n
  | .str s => "\x27" ++ s ++ "\x27"
  | .arr xs => "[" ++ String.intercalate ", " (pyReprList xs) ++ "]"
  | .obj fs => "\x7b" ++ String.intercalate ", " (pyReprFields fs) ++ "\x7d"

/-- `repr` of each element of a JSON array. -/
def pyReprList : List Json → List String
  | [] => []
  | x :: xs => pyRepr x :: pyReprList xs

/-- `repr` of each `key: value` binding of a JSON object. -/
def pyReprFields : List (String × Json) → List String
  | [] => []
  | (k, v) :: fs => ("\x27" ++ k ++ "\x27: " ++ pyRepr v) :: pyReprFields fs

end

/-- Python `str()` of a JSON value. -/
def pyStr : Json → String
  | .str s => s
  | v => pyRepr v

/-- What `for entry in v` yields for a JSON value `v`: arrays yield their
elements, strings their characters (as 1-char strings), objects their keys;
`null`, booleans and numbers are not iterable (Python raises `TypeError`,
modelled as `none`). -/
def pyIterate : Json → Option (List Json)
  | .str s => some (s.toList.map (fun c => Json.str (String.mk [c])))
  | .arr xs => some xs
  | .obj fs => some (fs.map (fun p => Json.str p.1))
  | _ => none

/-- Python `str.rstrip(".")`: drop trailing dot characters. -/
def rstripDots (s : String) : String :=
  String.mk ((s.toList.reverse.dropWhile (fun c => c = '.')).reverse)

/-- The sequence iterated by `for entry in raw_highlights or []` in
`_sanitize_digest_payload`: absent or falsy `highlights` gives `[]`; a truthy
non-iterable value raises `TypeError` (`none`). -/
def highlightsSeq (payload : List (String × Json)) : Option (List Json) :=
  match jsonGet payload "highlights" with
  | none => some []
  | some v => if v.truthy then pyIterate v else some []

/-- `_normalise_tags` (src/morning_digest.py lines 292-303). -/
def normalise_tags (raw_tags : Option Json) : List String :=
  let tags : List String :=
    match raw_tags with
    | some (.arr ts) =>
        ts.filterMap (fun t =>
          match t with
          | .str s =>
              let slug := pyLower (pyStrip s)
              if slug = "" then none else some (pyHyphenate slug)
          | _ => none)
    | _ => []
  if tags.isEmpty then ["markets"] else tags.take 4

/-- The repeated pattern `str(candidate.get(key) or dflt).strip()` of
`_sanitize_digest_payload`: a truthy candidate field is stringified, a falsy
or absent one is replaced by the default, and the result is stripped. -/
def fieldOr (candidate : List (String × Json)) (key : String) (dflt : String) : String :=
  (match jsonGet candidate key with
   | some v => if v.truthy then pyStr v else dflt
   | none => dflt) |> pyStrip

/-- The coerced `raw_items` list of `_sanitize_digest_payload`:
`payload.get("items")` when it is a list, else `[]`. -/
def payload_items (payload : List (String × Json)) : List Json :=
  match jsonGet payload "items" with
  | some (.arr xs) => xs
  | _ => []

/-- Loop body of `_sanitize_digest_payload` for index `idx` and positional
default `base` (src/morning_digest.py lines 327-356). -/
def sanitize_item (rawItems : List Json) (idx : Nat) (base : RawItem) : DigestItem :=
  let candidate : List (String × Json) :=
    match rawItems[idx]? with
    | some (.obj fs) => fs
    | _ => []
  let title := fieldOr candidate "title" base.title
  let url := fieldOr candidate "url" base.link
  let source := fieldOr candidate "source" base.source
  let summary := fieldOr candidate "summary" "Headline only; see source link."
  let market_impact :=
    fieldOr candidate "market_impact"
      "Analyse direct source; market impact commentary unavailable this week."
  let action :=
    fieldOr candidate "action"
      "Review the linked piece and note implications for your coverage list."
  let tags := normalise_tags (jsonGet candidate "tags")
  { title := title
    url := if url = "" then base.link else url
    source := if source = "" then base.source else source
    summary := summary
    market_impact := market_impact
    action := action
    tags := tags
    paywalled := base.paywalled
    published_display := base.published_display
    published_iso := base.published_iso }

/-- Errors the sanitizer itself can raise: iterating a truthy non-iterable
`highlights` value is a Python `TypeError` (not a `PerplexityError`). -/
inductive SanitizeError where
  | typeError : SanitizeError
deriving Repr, DecidableEq

/-- The `highlights` local of `_sanitize_digest_payload`
(src/morning_digest.py lines 307-317): filter the iterated entries down to
non-blank strings (stripped, trailing dots removed), substitute
"source: title" lines from the first three defaults when none survive, and
cap at 6. -/
def sanitize_highlights (seq : List Json) (defaults : List RawItem) : List String :=
  let highlights : List String :=
    seq.filterMap (fun entry =>
      match entry with
      | .str s => if pyStrip s = "" then none else some (rstripDots (pyStrip s))
      | _ => none)
  let highlights :=
    if highlights.isEmpty then
      (defaults.take 3).map (fun item => item.source ++ ": " ++ item.title)
    else highlights
  highlights.take 6

/-- The `sanitised_items` local of `_sanitize_digest_payload`
(src/morning_digest.py lines 323-356): the `enumerate`/`break` loop over
`defaults` (stopping at index 10) is rendered as `(defaults.take 10).enum`. -/
def sanitize_items (payload : List (String × Json)) (defaults : List RawItem) :
    List DigestItem :=
  (defaults.take 10).enum.map (fun p => sanitize_item (payload_items payload) p.1 p.2)

/-- `_sanitize_digest_payload` (src/morning_digest.py lines 306-358). -/
def sanitize_digest_payload (payload : List (String × Json)) (defaults : List RawItem) :
    Except SanitizeError Digest :=
  match highlightsSeq payload with
  | none => .error .typeError
  | some seq =>
    .ok { highlights := sanitize_highlights seq defaults
          items := sanitize_items payload defaults }

/-- `_build_fallback_item` (src/morning_digest.py lines 361-373). -/
def build_fallback_item (item : RawItem) : DigestItem :=
  { title := item.title
    url := item.link
    source := item.source
    summary := "Perplexity unavailable; sharing headline details only."
    market_impact := "Review primary source to assess potential portfolio impact."
    action := "Scan the linked piece and flag follow-ups during Monday\x27s stand-up."
    tags := ["headline"]
    paywalled := item.paywalled
    published_display := item.published_display
    published_iso := item.published_iso }

/-- `build_fallback_digest` (src/morning_digest.py lines 376-381).  The
Python `[...] or [placeholder]` yields the placeholder exactly when the
comprehension over `items[:3]` is empty, i.e. when `items` is empty. -/
def build_fallback_digest (items : List RawItem) : Digest :=
  let highlights := (items.take 3).map (fun item => item.source ++ ": " ++ item.title)
  { highlights := if highlights.isEmpty then ["Quiet tape across tracked feeds"] else highlights
    items := items.map build_fallback_item }

/-- `_mail_recipients` (src/morning_digest.py lines 76-82): splits the
`MAIL_TO` configuration value on commas, strips whitespace, drops blanks;
raises `SystemExit` (`none`) when nothing remains.  It reads no roster file. -/
def mail_recipients (mailTo : String) : Option (List String) :=
  let recipients :=
    (pySplitComma mailTo).filterMap (fun addr =>
      if pyStrip addr = "" then none else some (pyStrip addr))
  if recipients.isEmpty then none else some recipients

/-- Dedup key of `dedupe`: `(item["title"].lower(), item["link"])`. -/
def dedupeKey (item : RawItem) : String × String :=
  (pyLower item.title, item.link)

/-- Loop of `dedupe` with the `seen` set carried explicitly (the Python `set`
of pairs is modelled as a list with membership). -/
def dedupe_aux (seen : List (String × String)) : List RawItem → List RawItem
  | [] => []
  | item :: rest =>
    if dedupeKey item ∈ seen then dedupe_aux seen rest
    else item :: dedupe_aux (dedupeKey item :: seen) rest

/-- `dedupe` (src/morning_digest.py lines 232-242). -/
def dedupe (items : List RawItem) : List RawItem :=
  dedupe_aux [] items

/-- Spec reading of the Deduplicator (spec section 4.2): keep the first
occurrence of each `(lowercased title, link)` key and drop every later item
with the same key.  Stated independently of the implementation, for the
refinement theorem of claim C6. -/
def keepFirstByKey : List RawItem → List RawItem
  | [] => []
  | x :: xs => x :: keepFirstByKey (xs.filter (fun y => dedupeKey y ≠ dedupeKey x))
termination_by l => l.length
decreasing_by
  simp only [List.length_cons]
  exact Nat.lt_succ_of_le (List.length_filter_le _ _)

/-- An RSS entry's timestamp-bearing fields (`entry.get(key)` for the keys
tried by `_entry_timestamp`); `none` models an absent key and `some ""` the
falsy empty string. -/
structure Entry where
  published : Option String
  updated : Option String
  created : Option String
  modified : Option String
deriving Repr, DecidableEq, Inhabited

/-- One iteration of `_entry_timestamp`'s loop: skip an absent or falsy
value, otherwise attempt to parse (`none` on `ValueError`/`TypeError`). -/
def fieldTimestamp (parse : String → Option Int) : Option String → Option Int
  | none => none
  | some raw => if raw = "" then none else parse raw

/-- `_entry_timestamp` (src/morning_digest.py lines 168-181): the fields
`published`, `updated`, `created`, `modified` are tried in that order and the
first parseable one wins.  Timezone normalisation to UTC is absorbed into the
absolute (epoch-seconds) timestamp model. -/
def entry_timestamp (parse : String → Option Int) (e : Entry) : Option Int :=
  match fieldTimestamp parse e.published with
  | some ts => some ts
  | none =>
    match fieldTimestamp parse e.updated with
    | some ts => some ts
    | none =>
      match fieldTimestamp parse e.created with
      | some ts => some ts
      | none => fieldTimestamp parse e.modified

/-- `in_last_hours` (src/morning_digest.py lines 184-190): entries with no
parseable timestamp pass; otherwise the timestamp must be at or after
`now - hours` (in seconds, `timedelta(hours=hours)` = `hours * 3600` s). -/
def in_last_hours (parse : String → Option Int) (now : Int) (e : Entry) (hours : Int) : Bool :=
  match entry_timestamp parse e with
  | none => true
  | some ts => decide (now - hours * 3600 ≤ ts)

/-- Token usage dict `{"prompt": ..., "completion": ..., "total": ...}`. -/
structure TokenUsage where
  prompt : Int
  completion : Int
  total : Int
deriving Repr, DecidableEq, Inhabited

/-- The exception raised by the Summarizer (`PerplexityError`). -/
inductive PerplexityError where
  | err : String → PerplexityError
deriving Repr, DecidableEq

/-- `build_digest_payload` (src/morning_digest.py lines 707-715).  The
outcome of `summarize_with_perplexity` (remote call, external collaborator)
is passed in as `summarize`; the Python `try/except PerplexityError` becomes
a match on that outcome. -/
def build_digest_payload (items : List RawItem)
    (summarize : Except PerplexityError (Digest × TokenUsage)) :
    Digest × Bool × TokenUsage :=
  match summarize with
  | .ok (digest, usage) => (digest, false, usage)
  | .error _ => (build_fallback_digest items, true, ⟨0, 0, 0⟩)

/-- The selection performed by `main` before digest building
(src/morning_digest.py lines 771-772): `selected = items[:min(topn, 10)]`. -/
def selected_items (topn : Nat) (items : List RawItem) : List RawItem :=
  items.take (min topn 10)

/-- Concrete feed item fixture for witness instantiations. -/
def wA : RawItem := ⟨"A", "T", "L", "D", "I", false⟩

/-- Fixture sharing `dedupeKey` with `wA` (title equal up to case, same link). -/
def wA2 : RawItem := ⟨"A2", "t", "L", "D2", "I2", true⟩

/-- Fixture with a fresh `dedupeKey`. -/
def wB : RawItem := ⟨"B", "U", "M", "D3", "I3", false⟩

/-- Project the digest out of a successful sanitizer run (for witnesses). -/
def okDigest : Except SanitizeError Digest → Digest
  | .ok d => d
  | .error _ => ⟨[], []⟩

/-- The digest the sanitizer produces on an empty payload with default `[wA]`. -/
def wD5 : Digest := okDigest (sanitize_digest_payload [] [wA])

/-- The digest the sanitizer produces on an empty payload over a selection. -/
def wD3 : Digest := okDigest (sanitize_digest_payload [] (selected_items 2 [wA, wA2, wB]))

/-- The digest the sanitizer produces on a payload with an empty items array. -/
def wD9 : Digest := okDigest (sanitize_digest_payload [("items", Json.arr [])] [wA])

/-- A concrete timestamp parser for witness instantiations. -/
def wParse (s : String) : Option Int :=
  if s = "t1000" then some 1000 else none

/-- Entry with no parseable timestamp field. -/
def wEntryNone : Entry := ⟨none, none, none, none⟩

/-- Entry whose `published` field parses to instant 1000. -/
def wEntryTs : Entry := ⟨some "t1000", none, none, none⟩

/-- The payloads on which the sanitizer's `for entry in raw_highlights or []`
does not raise: the `highlights` field is absent, falsy, or iterable
(string, array or object); `true` and nonzero numbers raise `TypeError`. -/
def highlights_iterable (payload : List (String × Json)) : Bool :=
  match jsonGet payload "highlights" with
  | some (.bool true) => false
  | some (.num n) => n == 0
  | _ => true

theorem highlightsSeq_isSome_of_iterable (payload : List (String × Json))
    (h : highlights_iterable payload = true) : (highlightsSeq payload).isSome := by
  unfold highlights_iterable at h
  unfold highlightsSeq
  cases hg : jsonGet payload "highlights" with
  | none => rfl
  | some v =>
    rw [hg] at h
    cases v with
    | null => rfl
    | bool b => cases b with
      | false => rfl
      | true => simp at h
    | num n =>
      simp only [beq_iff_eq] at h
      subst h
      rfl
    | str s => by_cases hs : s = "" <;> simp [Json.truthy, pyIterate, hs]
    | arr xs => by_cases hs : xs.isEmpty <;> simp [Json.truthy, pyIterate, hs]
    | obj fs => by_cases hs : fs.isEmpty <;> simp [Json.truthy, pyIterate, hs]

theorem sanitize_ok_of_iterable (payload : List (String × Json)) (defaults : List RawItem)
    (h : highlights_iterable payload = true) :
    ∃ d, sanitize_digest_payload payload defaults = .ok d := by
  have hs := highlightsSeq_isSome_of_iterable payload h
  unfold sanitize_digest_payload
  cases hseq : highlightsSeq payload with
  | none => rw [hseq] at hs; simp at hs
  | some seq => exact ⟨_, rfl⟩

/-- C1: the claim says the mailer's recipient list is the union of a
CSV-sourced roster (deduplicated case-insensitively) and the comma-separated
MAIL_TO addresses, e.g. roster
["alpha@x.com","ALPHA@x.com","beta@x.com"] with MAIL_TO
"beta@x.com, extra@x.com," yielding
["alpha@x.com","beta@x.com","extra@x.com"].  The code's `_mail_recipients`
takes no roster at all: it only splits MAIL_TO on commas, strips and drops
blanks, so on that configuration it returns ["beta@x.com","extra@x.com"] and
the roster entry "alpha@x.com" cannot appear.  (The repository's own tests
call `_mail_recipients(members_path)` and `_load_member_emails`, which the
code does not provide, so the code contradicts its tests.) -/
theorem C1_mail_recipients_ignores_roster :
    mail_recipients "beta@x.com, extra@x.com," = some ["beta@x.com", "extra@x.com"] ∧
    (["beta@x.com", "extra@x.com"] : List String) ≠
      ["alpha@x.com", "beta@x.com", "extra@x.com"] := by
  exact ⟨rfl, by decide⟩

/-- C2 counterexample: the parsed JSON object `{"highlights": true}` makes
`_sanitize_digest_payload` iterate a non-iterable truthy value, raising a
`TypeError` — so the Sanitizer does not return a complete Digest for every
JSON object payload. -/
theorem C2_counterexample :
    sanitize_digest_payload [("highlights", Json.bool true)] [] =
      Except.error SanitizeError.typeError := rfl

/-- C2 (amended): for every parsed JSON object payload whose `highlights`
field is absent, falsy, or iterable (a string, array or object — not `true`
and not a nonzero number) and every list of RawItem defaults, the Sanitizer
returns a complete Digest without raising; a truthy non-iterable
`highlights` value instead raises a `TypeError` that is not a
`PerplexityError`, so it aborts the whole run rather than triggering the
fallback. -/
theorem C2_sanitizer_total (payload : List (String × Json)) (defaults : List RawItem)
    (h : highlights_iterable payload = true) :
    ∃ d, sanitize_digest_payload payload defaults = .ok d :=
  sanitize_ok_of_iterable payload defaults h

/-- C2 witness: a payload with a proper highlights array sanitizes fine. -/
theorem C2_witness :
    highlights_iterable [("highlights", Json.arr [Json.str "hi"])] = true ∧
    ∃ d, sanitize_digest_payload [("highlights", Json.arr [Json.str "hi"])] [wA] = .ok d :=
  ⟨rfl, C2_sanitizer_total [("highlights", Json.arr [Json.str "hi"])] [wA] rfl⟩


theorem sanitize_ok_elim {payload : List (String × Json)} {defaults : List RawItem}
    {d : Digest} (h : sanitize_digest_payload payload defaults = .ok d) :
    ∃ seq, highlightsSeq payload = some seq ∧
      d = ⟨sanitize_highlights seq defaults, sanitize_items payload defaults⟩ := by
  unfold sanitize_digest_payload at h
  cases hseq : highlightsSeq payload with
  | none => rw [hseq] at h; exact absurd h (by simp)
  | some seq =>
    rw [hseq] at h
    exact ⟨seq, rfl, (Except.ok.inj h).symm⟩

theorem sanitize_items_length (payload : List (String × Json)) (defaults : List RawItem) :
    (sanitize_items payload defaults).length = min defaults.length 10 := by
  simp [sanitize_items, List.enum_length, Nat.min_comm]

theorem sanitize_highlights_ne_nil (seq : List Json) (defaults : List RawItem)
    (hne : defaults ≠ []) : sanitize_highlights seq defaults ≠ [] := by
  unfold sanitize_highlights
  intro hcon
  rw [List.take_eq_nil_iff] at hcon
  rcases hcon with h6 | hnil
  · exact absurd h6 (by norm_num)
  · split at hnil
    · rw [List.map_eq_nil_iff, List.take_eq_nil_iff] at hnil
      rcases hnil with h3 | hD
      · exact absurd h3 (by norm_num)
      · exact hne hD
    · rename_i hIs
      exact hIs (by rw [hnil]; rfl)

/-- C3: for a selected RawItem list (`selected = items[:min(topn, 10)]` in
`main`), both the sanitized digest (when the sanitizer succeeds) and the
fallback digest carry exactly `min(len(selected), 10)` items, and in
particular never more than 10. -/
theorem C3_digest_item_count (topn : Nat) (items : List RawItem)
    (payload : List (String × Json)) (d : Digest)
    (h : sanitize_digest_payload payload (selected_items topn items) = .ok d) :
    d.items.length = min (selected_items topn items).length 10 ∧
    d.items.length ≤ 10 ∧
    (build_fallback_digest (selected_items topn items)).items.length
      = min (selected_items topn items).length 10 ∧
    (build_fallback_digest (selected_items topn items)).items.length ≤ 10 := by
  have hsel : (selected_items topn items).length ≤ 10 := by
    unfold selected_items
    simp only [List.length_take]
    omega
  obtain ⟨seq, -, rfl⟩ := sanitize_ok_elim h
  dsimp only
  have hs := sanitize_items_length payload (selected_items topn items)
  have hf : (build_fallback_digest (selected_items topn items)).items.length
      = (selected_items topn items).length := by
    simp [build_fallback_digest]
  refine ⟨hs, ?_, ?_, ?_⟩
  · omega
  · rw [hf, Nat.min_eq_left hsel]
  · omega

/-- C3 witness: selection of 2 items out of 3, empty payload. -/
theorem C3_witness :
    wD3.items.length = min (selected_items 2 [wA, wA2, wB]).length 10 ∧
    wD3.items.length ≤ 10 ∧
    (build_fallback_digest (selected_items 2 [wA, wA2, wB])).items.length
      = min (selected_items 2 [wA, wA2, wB]).length 10 ∧
    (build_fallback_digest (selected_items 2 [wA, wA2, wB])).items.length ≤ 10 :=
  C3_digest_item_count 2 [wA, wA2, wB] [] wD3 rfl

/-- C4: the fallback digest is a pure function of the RawItem list with
exactly one DigestItem per RawItem (title/url/source copied positionally,
fixed generic summary, market-impact and action text, single tag
"headline"), and highlights built from the first three RawItems, or the
single "quiet" placeholder when the list is empty. -/
theorem C4_fallback_shape (items : List RawItem) :
    (build_fallback_digest items).items.length = items.length ∧
    (build_fallback_digest items).items.map (fun it => (it.title, it.url, it.source)) =
      items.map (fun it => (it.title, it.link, it.source)) ∧
    (∀ it ∈ (build_fallback_digest items).items,
        it.summary = "Perplexity unavailable; sharing headline details only." ∧
        it.market_impact = "Review primary source to assess potential portfolio impact." ∧
        it.action = "Scan the linked piece and flag follow-ups during Monday\x27s stand-up." ∧
        it.tags = ["headline"]) ∧
    (build_fallback_digest items).highlights =
      (if items.isEmpty then ["Quiet tape across tracked feeds"]
       else (items.take 3).map (fun it => it.source ++ ": " ++ it.title)) := by
  refine ⟨?_, ?_, ?_, ?_⟩
  · simp [build_fallback_digest]
  · simp only [build_fallback_digest, List.map_map]
    rfl
  · intro it hit
    simp only [build_fallback_digest, List.mem_map] at hit
    obtain ⟨x, -, rfl⟩ := hit
    exact ⟨rfl, rfl, rfl, rfl⟩
  · cases items with
    | nil => rfl
    | cons x xs => simp [build_fallback_digest]

/-- C4 witness: fallback digest over the one-item list `[wA]`. -/
theorem C4_witness :
    (build_fallback_digest [wA]).items.length = ([wA] : List RawItem).length ∧
    (build_fallback_digest [wA]).items.map (fun it => (it.title, it.url, it.source)) =
      ([wA] : List RawItem).map (fun it => (it.title, it.link, it.source)) ∧
    (∀ it ∈ (build_fallback_digest [wA]).items,
        it.summary = "Perplexity unavailable; sharing headline details only." ∧
        it.market_impact = "Review primary source to assess potential portfolio impact." ∧
        it.action = "Scan the linked piece and flag follow-ups during Monday\x27s stand-up." ∧
        it.tags = ["headline"]) ∧
    (build_fallback_digest [wA]).highlights =
      (if ([wA] : List RawItem).isEmpty then ["Quiet tape across tracked feeds"]
       else (([wA] : List RawItem).take 3).map (fun it => it.source ++ ": " ++ it.title)) :=
  C4_fallback_shape [wA]

/-- C5 counterexample: with an empty defaults list and a payload carrying no
usable highlight strings, the Sanitizer returns a digest whose highlights
sequence is empty — no placeholder is substituted on this path (the renderer
substitutes one downstream, but the Digest itself violates the claim). -/
theorem C5_counterexample :
    sanitize_digest_payload [] [] = Except.ok ⟨[], []⟩ := rfl

/-- C5 (amended): the fallback digest's highlights are never empty (for any
RawItem list `l`, including the empty one); the sanitizer's highlights are
non-empty provided the RawItem defaults list is non-empty.  (With an empty
defaults list and no usable payload highlights the sanitized highlights are
empty, per the counterexample.) -/
theorem C5_highlights_nonempty (payload : List (String × Json))
    (defaults l : List RawItem) (d : Digest) (hne : defaults ≠ [])
    (h : sanitize_digest_payload payload defaults = .ok d) :
    d.highlights ≠ [] ∧ (build_fallback_digest l).highlights ≠ [] := by
  constructor
  · obtain ⟨seq, -, rfl⟩ := sanitize_ok_elim h
    exact sanitize_highlights_ne_nil seq defaults hne
  · cases l with
    | nil => simp [build_fallback_digest]
    | cons x xs => simp [build_fallback_digest]

/-- C5 witness: one default item, empty payload; fallback over the empty list. -/
theorem C5_witness :
    wD5.highlights ≠ [] ∧ (build_fallback_digest []).highlights ≠ [] :=
  C5_highlights_nonempty [] [wA] [] wD5 (by decide) rfl

theorem dedupe_aux_sublist (seen : List (String × String)) (l : List RawItem) :
    (dedupe_aux seen l).Sublist l := by
  induction l generalizing seen with
  | nil => exact List.Sublist.refl []
  | cons x xs ih =>
    unfold dedupe_aux
    split
    · exact (ih seen).trans (List.sublist_cons_self x xs)
    · exact (ih _).cons₂ x

theorem dedupe_aux_eq_keepFirst (seen : List (String × String)) (l : List RawItem) :
    dedupe_aux seen l =
      keepFirstByKey (l.filter (fun y => decide (dedupeKey y ∉ seen))) := by
  induction l generalizing seen with
  | nil => simp [dedupe_aux, keepFirstByKey]
  | cons x xs ih =>
    unfold dedupe_aux
    by_cases hx : dedupeKey x ∈ seen
    · rw [if_pos hx, List.filter_cons_of_neg (by simpa using hx), ih]
    · rw [if_neg hx, List.filter_cons_of_pos (by simpa using hx)]
      simp only [keepFirstByKey]
      congr 1
      rw [ih (dedupeKey x :: seen), List.filter_filter]
      congr 1
      apply List.filter_congr
      intro y _
      simp [List.mem_cons, not_or, Bool.and_comm]

theorem dedupe_aux_keys (seen : List (String × String)) (l : List RawItem) :
    ((dedupe_aux seen l).map dedupeKey).Nodup ∧
    ∀ y ∈ dedupe_aux seen l, dedupeKey y ∉ seen := by
  induction l generalizing seen with
  | nil => exact ⟨List.nodup_nil, by simp [dedupe_aux]⟩
  | cons x xs ih =>
    unfold dedupe_aux
    by_cases hx : dedupeKey x ∈ seen
    · rw [if_pos hx]
      exact ih seen
    · rw [if_neg hx]
      obtain ⟨hnod, hmem⟩ := ih (dedupeKey x :: seen)
      refine ⟨?_, ?_⟩
      · simp only [List.map_cons, List.nodup_cons]
        refine ⟨?_, hnod⟩
        intro hcon
        rw [List.mem_map] at hcon
        obtain ⟨y, hy, hkey⟩ := hcon
        exact (hmem y hy) (by rw [hkey]; exact List.mem_cons_self _ _)
      · intro y hy
        rcases List.mem_cons.mp hy with rfl | hy'
        · exact hx
        · intro hcon
          exact (hmem y hy') (List.mem_cons_of_mem _ hcon)

theorem dedupe_aux_of_nodup (seen : List (String × String)) (l : List RawItem)
    (hnod : (l.map dedupeKey).Nodup) (hdisj : ∀ y ∈ l, dedupeKey y ∉ seen) :
    dedupe_aux seen l = l := by
  induction l generalizing seen with
  | nil => rfl
  | cons x xs ih =>
    rw [List.map_cons, List.nodup_cons] at hnod
    unfold dedupe_aux
    rw [if_neg (hdisj x (List.mem_cons_self x xs))]
    congr 1
    apply ih
    · exact hnod.2
    · intro y hy hcon
      rcases List.mem_cons.mp hcon with heq | hseen
      · exact hnod.1 (heq ▸ List.mem_map_of_mem dedupeKey hy)
      · exact hdisj y (List.mem_cons_of_mem x hy) hseen

theorem dedupe_aux_covers (seen : List (String × String)) (l : List RawItem) :
    ∀ x ∈ l, dedupeKey x ∈ seen ∨ ∃ y ∈ dedupe_aux seen l, dedupeKey y = dedupeKey x := by
  induction l generalizing seen with
  | nil => simp
  | cons z zs ih =>
    intro x hx
    unfold dedupe_aux
    by_cases hz : dedupeKey z ∈ seen
    · rw [if_pos hz]
      rcases List.mem_cons.mp hx with heq | hx'
      · exact Or.inl (by rw [heq]; exact hz)
      · exact ih seen x hx'
    · rw [if_neg hz]
      rcases List.mem_cons.mp hx with heq | hx'
      · exact Or.inr ⟨z, List.mem_cons_self _ _, by rw [heq]⟩
      · rcases ih (dedupeKey z :: seen) x hx' with hmem | ⟨y, hy, hkey⟩
        · rcases List.mem_cons.mp hmem with heq | hseen
          · exact Or.inr ⟨z, List.mem_cons_self _ _, heq.symm⟩
          · exact Or.inl hseen
        · exact Or.inr ⟨y, List.mem_cons_of_mem _ hy, hkey⟩

/-- C6: `dedupe` agrees with the spec-level "keep the first occurrence of
each (lowercased title, link) key" function, its output is a subsequence of
its input (stable first-seen order), its output keys are pairwise distinct
(so any two input items sharing a key contribute exactly one kept item), and
every input item's key is represented in the output. -/
theorem C6_dedupe_first_occurrence (items : List RawItem) :
    dedupe items = keepFirstByKey items ∧
    (dedupe items).Sublist items ∧
    ((dedupe items).map dedupeKey).Nodup ∧
    ∀ x ∈ items, ∃ y ∈ dedupe items, dedupeKey y = dedupeKey x := by
  refine ⟨?_, dedupe_aux_sublist [] items, (dedupe_aux_keys [] items).1, ?_⟩
  · unfold dedupe
    rw [dedupe_aux_eq_keepFirst]
    congr 1
    apply List.filter_eq_self.mpr
    intro y _
    simp
  · intro x hx
    rcases dedupe_aux_covers [] items x hx with hmem | hex
    · exact absurd hmem (List.not_mem_nil _)
    · exact hex

/-- C6 witness: `wA` and `wA2` share a key (equal lowercased title, equal
link); exactly the first survives, ahead of the unrelated `wB`. -/
theorem C6_witness :
    dedupe [wA, wA2, wB] = keepFirstByKey [wA, wA2, wB] ∧
    (∃ y ∈ dedupe [wA, wA2, wB], dedupeKey y = dedupeKey wA2) ∧
    dedupe [wA, wA2, wB] = [wA, wB] :=
  ⟨(C6_dedupe_first_occurrence [wA, wA2, wB]).1,
   (C6_dedupe_first_occurrence [wA, wA2, wB]).2.2.2 wA2 (by decide),
   by decide⟩

/-- C10: the Deduplicator is idempotent, and its output is a subsequence of
its input (no item is invented or modified, relative order preserved). -/
theorem C10_dedupe_idempotent (items : List RawItem) :
    dedupe (dedupe items) = dedupe items ∧ (dedupe items).Sublist items := by
  refine ⟨?_, dedupe_aux_sublist [] items⟩
  unfold dedupe
  apply dedupe_aux_of_nodup
  · exact (dedupe_aux_keys [] items).1
  · intro y _
    exact List.not_mem_nil _

/-- C7: `in_last_hours` returns true exactly when the entry has no parseable
timestamp or its timestamp is at or after `now - hours`; the timestamp
fields are tried in the priority order published, updated, created, modified
(here: a parseable `published` wins); an entry with no parseable timestamp
is included for every window; one timestamped exactly `now` is included for
a 24-hour window; one older than 24h1s is excluded. -/
theorem C7_in_last_hours_window (parse : String → Option Int) (now : Int)
    (e : Entry) (hours : Int) :
    (in_last_hours parse now e hours = true ↔
       (entry_timestamp parse e = none ∨
        ∃ ts, entry_timestamp parse e = some ts ∧ now - hours * 3600 ≤ ts)) ∧
    (entry_timestamp parse e = none → in_last_hours parse now e hours = true) ∧
    (∀ s ts, e.published = some s → s ≠ "" → parse s = some ts →
        entry_timestamp parse e = some ts) ∧
    (entry_timestamp parse e = some now → in_last_hours parse now e 24 = true) ∧
    (entry_timestamp parse e = some (now - 24 * 3600 - 1) →
        in_last_hours parse now e 24 = false) := by
  refine ⟨?_, ?_, ?_, ?_, ?_⟩
  · unfold in_last_hours
    cases h : entry_timestamp parse e with
    | none => simp
    | some ts => simp
  · intro h
    unfold in_last_hours
    rw [h]
  · intro s ts hs hne hp
    have hf : fieldTimestamp parse e.published = some ts := by
      rw [hs]
      show (if s = "" then none else parse s) = some ts
      rw [if_neg hne, hp]
    unfold entry_timestamp
    rw [hf]
  · intro h
    unfold in_last_hours
    rw [h]
    exact decide_eq_true (by omega)
  · intro h
    unfold in_last_hours
    rw [h]
    exact decide_eq_false (by omega)

/-- C7 witness: concrete parser and entries exercising the no-timestamp,
exactly-now and 24h1s-old cases, and the priority of `published`. -/
theorem C7_witness :
    in_last_hours wParse 1000 wEntryNone 24 = true ∧
    in_last_hours wParse 1000 wEntryTs 24 = true ∧
    in_last_hours wParse 87401 wEntryTs 24 = false ∧
    entry_timestamp wParse wEntryTs = some 1000 :=
  ⟨(C7_in_last_hours_window wParse 1000 wEntryNone 24).2.1 rfl,
   (C7_in_last_hours_window wParse 1000 wEntryTs 24).2.2.2.1 rfl,
   (C7_in_last_hours_window wParse 87401 wEntryTs 24).2.2.2.2 (by decide),
   (C7_in_last_hours_window wParse 1000 wEntryTs 24).2.2.1 "t1000" 1000 rfl
     (by decide) rfl⟩

/-- C8: when the Summarizer outcome is a SummarizationError, digest building
returns the local fallback digest, a true used-fallback flag and an
all-zero token usage; on success it returns the Summarizer's digest, a false
flag and the Summarizer's usage. -/
theorem C8_fallback_on_error (items : List RawItem)
    (res : Except PerplexityError (Digest × TokenUsage)) :
    (∀ e, res = .error e →
        build_digest_payload items res =
          (build_fallback_digest items, true, ⟨0, 0, 0⟩)) ∧
    (∀ d u, res = .ok (d, u) → build_digest_payload items res = (d, false, u)) := by
  constructor
  · intro e he
    subst he
    rfl
  · intro d u hu
    subst hu
    rfl

/-- C8 witness: a concrete error outcome and a concrete success outcome. -/
theorem C8_witness :
    build_digest_payload [wA] (Except.error (PerplexityError.err "boom")) =
      (build_fallback_digest [wA], true, ⟨0, 0, 0⟩) ∧
    build_digest_payload [wA] (Except.ok (wD5, ⟨1, 2, 3⟩)) = (wD5, false, ⟨1, 2, 3⟩) :=
  ⟨(C8_fallback_on_error [wA] _).1 _ rfl,
   (C8_fallback_on_error [wA] _).2 wD5 ⟨1, 2, 3⟩ rfl⟩

/-- C9: any DigestItem at a position at or beyond the end of the payload's
items array is built entirely from the positional RawItem default (stripped
title/link/source, the fixed default summary/impact/action strings, the
single default tag "markets"); and at every position the paywalled,
published_display and published_iso fields come from the RawItem, never
from the payload. -/
theorem C9_defaults_beyond_payload (payload : List (String × Json))
    (defaults : List RawItem) (d : Digest)
    (h : sanitize_digest_payload payload defaults = .ok d) :
    (∀ (i : Nat) (base : RawItem), defaults[i]? = some base → i < 10 →
        (payload_items payload).length ≤ i →
        d.items[i]? = some
          { title := pyStrip base.title
            url := if pyStrip base.link = "" then base.link else pyStrip base.link
            source := if pyStrip base.source = "" then base.source else pyStrip base.source
            summary := "Headline only; see source link."
            market_impact := "Analyse direct source; market impact commentary unavailable this week."
            action := "Review the linked piece and note implications for your coverage list."
            tags := ["markets"]
            paywalled := base.paywalled
            published_display := base.published_display
            published_iso := base.published_iso }) ∧
    (∀ (i : Nat) (item : DigestItem) (base : RawItem),
        d.items[i]? = some item → defaults[i]? = some base →
        item.paywalled = base.paywalled ∧
        item.published_display = base.published_display ∧
        item.published_iso = base.published_iso) := by
  obtain ⟨seq, -, rfl⟩ := sanitize_ok_elim h
  dsimp only
  constructor
  · intro i base hbase hi hlen
    unfold sanitize_items
    rw [List.getElem?_map, List.getElem?_enum, List.getElem?_take, if_pos hi, hbase]
    simp only [Option.map_some']
    congr 1
    unfold sanitize_item
    rw [List.getElem?_eq_none hlen]
    rfl
  · intro i item base hitem hbase
    unfold sanitize_items at hitem
    rw [List.getElem?_map, List.getElem?_enum, List.getElem?_take] at hitem
    by_cases hi : i < 10
    · rw [if_pos hi, hbase] at hitem
      simp only [Option.map_some'] at hitem
      obtain rfl := Option.some.inj hitem
      exact ⟨rfl, rfl, rfl⟩
    · rw [if_neg hi] at hitem
      simp at hitem

/-- C9 witness: payload with an empty items array, one default RawItem. -/
theorem C9_witness :
    wD9.items[0]? = some
      { title := pyStrip wA.title
        url := if pyStrip wA.link = "" then wA.link else pyStrip wA.link
        source := if pyStrip wA.source = "" then wA.source else pyStrip wA.source
        summary := "Headline only; see source link."
        market_impact := "Analyse direct source; market impact commentary unavailable this week."
        action := "Review the linked piece and note implications for your coverage list."
        tags := ["markets"]
        paywalled := wA.paywalled
        published_display := wA.published_display
        published_iso := wA.published_iso } :=
  (C9_defaults_beyond_payload [("items", Json.arr [])] [wA] wD9 rfl).1 0 wA rfl
    (by decide) (by decide)
